import Mathlib

set_option maxHeartbeats 1000000

/-!
Verification development for the smart-inventory-recommender ingestion core.

The Python sources (`src/ingest.py`, `src/reviewer_profiling.py`) are shallowly
embedded below.  Raw text lines are modelled as `List Char`; Python `str`
library primitives (`strip`, `split`, `startswith`, `lower`, `int(...)`,
`re.search` for the two fixed patterns used by the code) are modelled as
executable functions over `List Char`.  Fallible Python code (uncaught
exceptions) is modelled with `Except String`.
-/

/-- Python whitespace characters recognised by `str.strip` / `str.split`
(space, tab, newline, carriage return, vertical tab, form feed). -/
def isSp (c : Char) : Bool :=
  c == ' ' || c == '\t' || c == '\n' || c == '\r' || c == Char.ofNat 11 || c == Char.ofNat 12

/-- `startsWithL p l` models Python `l.startswith(p)`. -/
def startsWithL : List Char → List Char → Bool
  | [], _ => true
  | _ :: _, [] => false
  | p :: ps, c :: cs => p == c && startsWithL ps cs

/-- Remove trailing whitespace (right half of Python `str.strip`). -/
def trimRightL : List Char → List Char
  | [] => []
  | a :: xs =>
    if (trimRightL xs).isEmpty then (if isSp a then [] else [a]) else a :: trimRightL xs

/-- Models Python `str.strip()`: drop leading and trailing whitespace. -/
def trimL (l : List Char) : List Char := trimRightL (l.dropWhile isSp)

/-- Worker for `pySplitWs`; `cur` holds the current token reversed. -/
def splitWsAux : List Char → List Char → List (List Char)
  | [], cur => if cur.isEmpty then [] else [cur.reverse]
  | c :: cs, cur =>
    if isSp c then (if cur.isEmpty then splitWsAux cs [] else cur.reverse :: splitWsAux cs [])
    else splitWsAux cs (c :: cur)

/-- Models Python `str.split()` (no argument): split on whitespace runs,
with no empty tokens. -/
def pySplitWs (l : List Char) : List (List Char) := splitWsAux l []

/-- Models `line.split(':', 1)[1]`: everything after the first colon.
All call sites in the source are guarded by a prefix check that guarantees a
colon is present; for a colon-free input this returns `[]`. -/
def afterColon (l : List Char) : List Char := (l.dropWhile (fun c => !(c == ':'))).tail

/-- Worker for `splitOnC`; `cur` holds the current piece reversed. -/
def splitOnCAux (sep : Char) : List Char → List Char → List (List Char)
  | [], cur => [cur.reverse]
  | c :: cs, cur =>
    if c == sep then cur.reverse :: splitOnCAux sep cs [] else splitOnCAux sep cs (c :: cur)

/-- Models Python `str.split(sep)` for a one-character separator
(empty pieces are kept). -/
def splitOnC (sep : Char) (l : List Char) : List (List Char) := splitOnCAux sep l []

/-- Numeric value of a list of ASCII digits. -/
def natOfDigits (l : List Char) : ℕ := l.foldl (fun n c => 10 * n + (c.toNat - 48)) 0

/-- Valid continuation of a Python integer literal after its first digit:
digits, with single underscores allowed only between digits. -/
def digitsTail : List Char → Bool
  | [] => true
  | '_' :: c :: cs => c.isDigit && digitsTail cs
  | ['_'] => false
  | c :: cs => c.isDigit && digitsTail cs

/-- Unsigned part of Python `int(s)` on an already-stripped ASCII string:
a digit followed by digits/underscores per the Python grammar.  `none` models
a raised `ValueError`. -/
def pyDigitsVal (l : List Char) : Option ℕ :=
  match l with
  | [] => none
  | c :: cs =>
    if c.isDigit ∧ digitsTail cs then some (natOfDigits (l.filter (fun x => !(x == '_'))))
    else none

/-- Models Python `int(s)` for the (pre-stripped) token strings the parser
feeds it: optional sign then a decimal digit string.  `none` models a raised
`ValueError`. -/
def pyInt (l : List Char) : Option ℤ :=
  match l with
  | '+' :: r => (pyDigitsVal r).map (fun n => (n : ℤ))
  | '-' :: r => (pyDigitsVal r).map (fun n => -(n : ℤ))
  | _ => (pyDigitsVal l).map (fun n => (n : ℤ))

/-- Models Python `str.lower()` (the source only compares ASCII text). -/
def pyLower (l : List Char) : List Char := l.map Char.toLower

/-- Attempt to match the regex `key ++ "\s*(\d+)"` at the head of `l`,
returning the captured integer (maximal digit run). -/
def matchKeyNum (key l : List Char) : Option ℕ :=
  if startsWithL key l then
    let rest := (l.drop key.length).dropWhile isSp
    let ds := rest.takeWhile Char.isDigit
    if ds.isEmpty then none else some (natOfDigits ds)
  else none

/-- Models `re.search(key + r"\s*(\d+)", line)`: leftmost match wins. -/
def searchNum (key : List Char) : List Char → Option ℕ
  | [] => none
  | c :: cs =>
    match matchKeyNum key (c :: cs) with
    | some n => some n
    | none => searchNum key cs

/-- Models the Python slice `l[2:stop]` with a possibly negative `stop`
(Python semantics: a negative stop counts from the end, then both bounds are
clamped). -/
def pySliceFrom2 {α : Type} (l : List α) (stop : ℤ) : List α :=
  let len : ℤ := l.length
  let st := if stop < 0 then max 0 (len + stop) else min stop len
  (l.take st.toNat).drop 2

/- ### Line-classifier key strings (`src/ingest.py` prefixes) -/

def idKey : List Char := ['I', 'd', ':']
def asinKey : List Char := ['A', 'S', 'I', 'N', ':']
def titleKey : List Char := ['t', 'i', 't', 'l', 'e', ':']
def groupKey : List Char := ['g', 'r', 'o', 'u', 'p', ':']
def rankKey : List Char := ['s', 'a', 'l', 'e', 's', 'r', 'a', 'n', 'k', ':']
def simKey : List Char := ['s', 'i', 'm', 'i', 'l', 'a', 'r', ':']
def catKey : List Char := ['c', 'a', 't', 'e', 'g', 'o', 'r', 'i', 'e', 's', ':']
def revKey : List Char := ['r', 'e', 'v', 'i', 'e', 'w', 's', ':']
def ratingKey : List Char := ['r', 'a', 't', 'i', 'n', 'g', ':']
def totalKey : List Char := ['t', 'o', 't', 'a', 'l', ':']
def discKey : List Char :=
  ['d', 'i', 's', 'c', 'o', 'n', 't', 'i', 'n', 'u', 'e', 'd', ' ',
   'p', 'r', 'o', 'd', 'u', 'c', 't']

/- ### The in-progress record (the Python `record` dict) -/

/-- The transient record dict built by `parse_amazon_meta`.  A field is `none`
exactly when the corresponding key is absent from the dict. -/
structure RawRecord where
  id : Option (List Char)
  asin : Option (List Char)
  title : Option (List Char)
  group : Option (List Char)
  salesrank : Option (List Char)
  similar : Option (List (List Char))
  review_lines : Option (List (List Char))
  reviews_to_read : Option ℕ
  deriving DecidableEq

/-- The empty dict `{}`. -/
def emptyRec : RawRecord :=
  { id := none, asin := none, title := none, group := none, salesrank := none,
    similar := none, review_lines := none, reviews_to_read := none }

/-- Python truthiness of the dict: `if record:` is true iff some key is set. -/
def RawRecord.isEmpty (r : RawRecord) : Bool :=
  r.id.isNone && r.asin.isNone && r.title.isNone && r.group.isNone &&
  r.salesrank.isNone && r.similar.isNone && r.review_lines.isNone &&
  r.reviews_to_read.isNone

/- ### Materialized rows (`process_record` appends) -/

structure ProductRow where
  Id : ℤ
  asin : Option (List Char)
  title : List Char
  salesrank : List Char
  group : List Char
  deriving DecidableEq

structure EdgeRow where
  source : Option (List Char)
  target : List Char
  deriving DecidableEq

structure ReviewRow where
  asin : Option (List Char)
  date : List Char
  rating : Option ℕ
  deriving DecidableEq

/-- Models `int(record.get('Id'))`: `int(None)` raises `TypeError`, a
non-integer string raises `ValueError`. -/
def pyIntOfId : Option (List Char) → Except String ℤ
  | none => .error "TypeError: int() argument is None"
  | some s =>
    match pyInt s with
    | none => .error "ValueError: invalid literal for int"
    | some n => .ok n

/-- The review-line loop of `process_record`: `parts = line.split()`,
`date_str = parts[0]` (an `IndexError` on a whitespace-only line), rating via
`re.search(r'rating:\s*(\d+)', line)`. -/
def reviewRowsOf (a : Option (List Char)) : List (List Char) → Except String (List ReviewRow)
  | [] => .ok []
  | l :: ls =>
    match pySplitWs l with
    | [] => .error "IndexError: list index out of range"
    | d :: _ =>
      match reviewRowsOf a ls with
      | .error e => .error e
      | .ok rs => .ok ({ asin := a, date := d, rating := searchNum ratingKey l } :: rs)

/-- `process_record` from `src/ingest.py`: the rows it appends for one
completed record, or the exception it raises. -/
def process_record (rec : RawRecord) :
    Except String (List ProductRow × List EdgeRow × List ReviewRow) :=
  if pyLower (rec.group.getD []) = discKey then .ok ([], [], [])
  else
    match pyIntOfId rec.id with
    | .error e => .error e
    | .ok n =>
      match reviewRowsOf rec.asin (rec.review_lines.getD []) with
      | .error e => .error e
      | .ok rows =>
        .ok ([{ Id := n, asin := rec.asin, title := rec.title.getD [],
                salesrank := rec.salesrank.getD [], group := rec.group.getD [] }],
             (rec.similar.getD []).map (fun sim => { source := rec.asin, target := sim }),
             rows)

/- ### The per-line state machine of `parse_amazon_meta` -/

/-- Loop state: the in-progress record plus the three accumulated row lists. -/
structure ParseState where
  record : RawRecord
  products : List ProductRow
  edges : List EdgeRow
  reviews : List ReviewRow
  deriving DecidableEq

def initState : ParseState := { record := emptyRec, products := [], edges := [], reviews := [] }

/-- `if record: process_record(...); record = {}` — materialize the
in-progress record into the accumulated lists. -/
def flushRecord (st : ParseState) : Except String ParseState :=
  if st.record.isEmpty then .ok st
  else
    match process_record st.record with
    | .error e => .error e
    | .ok (ps, es, rs) =>
      .ok { record := emptyRec, products := st.products ++ ps,
            edges := st.edges ++ es, reviews := st.reviews ++ rs }

/-- The `similar:` branch: `parts = line.split()`,
`count = int(parts[1]) if len(parts) > 1 else 0`,
`record['similar'] = parts[2:2 + count]`. -/
def parse_similar_line (line : List Char) : Except String (List (List Char)) :=
  let parts := pySplitWs line
  if 1 < parts.length then
    match pyInt (parts.getD 1 []) with
    | none => .error "ValueError: invalid literal for int"
    | some n => .ok (pySliceFrom2 parts (2 + n))
  else .ok (pySliceFrom2 parts 2)

/-- One iteration of the `for line in f` loop of `parse_amazon_meta`
(the input line already has its trailing newline removed). -/
def stepLine (st : ParseState) (line : List Char) : Except String ParseState :=
  if startsWithL idKey line then
    match flushRecord st with
    | .error e => .error e
    | .ok st' => .ok { st' with record := { emptyRec with id := some (trimL (afterColon line)) } }
  else if startsWithL asinKey line then
    .ok { st with record := { st.record with asin := some (trimL (afterColon line)) } }
  else if startsWithL titleKey (trimL line) then
    .ok { st with record := { st.record with title := some (trimL (afterColon line)) } }
  else if startsWithL groupKey (trimL line) then
    .ok { st with record := { st.record with group := some (trimL (afterColon line)) } }
  else if startsWithL rankKey (trimL line) then
    .ok { st with record := { st.record with salesrank := some (trimL (afterColon line)) } }
  else if startsWithL simKey (trimL line) then
    match parse_similar_line line with
    | .error e => .error e
    | .ok codes => .ok { st with record := { st.record with similar := some codes } }
  else if startsWithL catKey (trimL line) then
    .ok st
  else if startsWithL revKey (trimL line) then
    .ok { st with record :=
            { st.record with
                review_lines := some []
                reviews_to_read := some ((searchNum totalKey line).getD 0) } }
  else
    match st.record.reviews_to_read with
    | some n =>
      if 0 < n then
        if trimL line = [] then .ok st
        else
          .ok { st with record :=
                  { st.record with
                      review_lines := some (st.record.review_lines.getD [] ++ [trimL line])
                      reviews_to_read := some (n - 1) } }
      else .ok st
    | none => .ok st

/-- The whole `for line in f` loop. -/
def foldSteps (st : ParseState) : List (List Char) → Except String ParseState
  | [] => .ok st
  | l :: ls =>
    match stepLine st l with
    | .error e => .error e
    | .ok st' => foldSteps st' ls

/- ### Table finalizer -/

/-- Insert into a sorted list (helper for the sorting done inside
`Series.median` / `sort_values`). -/
def insSorted {α : Type} [LinearOrder α] (x : α) : List α → List α
  | [] => [x]
  | y :: ys => if x ≤ y then x :: y :: ys else y :: insSorted x ys

/-- Stable insertion sort (models the sorting pandas performs). -/
def insSort {α : Type} [LinearOrder α] : List α → List α
  | [] => []
  | x :: xs => insSorted x (insSort xs)

/-- pandas `Series.median` over the non-missing values: `none` (NaN) on an
empty list, otherwise middle element / mean of the two middle elements. -/
def medianQ (l : List ℚ) : Option ℚ :=
  if l.length = 0 then none
  else
    let s := insSort l
    let n := l.length
    if n % 2 = 1 then some (s.getD (n / 2) 0)
    else some ((s.getD (n / 2 - 1) 0 + s.getD (n / 2) 0) / 2)

/-- Python `int(float)` / `astype(int)`: truncation toward zero. -/
def pyTrunc (q : ℚ) : ℤ := if 0 ≤ q then ⌊q⌋ else ⌈q⌉

/-- Models `pd.to_numeric(s, errors='coerce')` on one already-stripped string:
optional sign, digits with optional fractional part, optional exponent.
(`nan`/`inf` spellings are not modelled; the source data never produces
them.)  `none` is NaN. -/
def parseMantissa (l : List Char) : Option (ℚ × List Char) :=
  let ip := l.takeWhile Char.isDigit
  let r1 := l.drop ip.length
  match r1 with
  | '.' :: r2 =>
    let fp := r2.takeWhile Char.isDigit
    if ip.isEmpty ∧ fp.isEmpty then none
    else some ((natOfDigits ip : ℚ) + (natOfDigits fp : ℚ) / ((10 : ℚ) ^ fp.length), r2.drop fp.length)
  | _ => if ip.isEmpty then none else some ((natOfDigits ip : ℚ), r1)

def parseExpTail (m : ℚ) (r : List Char) : Option ℚ :=
  let sgn : Bool × List Char :=
    match r with
    | '+' :: t => (false, t)
    | '-' :: t => (true, t)
    | _ => (false, r)
  let ds := sgn.2.takeWhile Char.isDigit
  if ds.isEmpty ∨ ¬(sgn.2.drop ds.length).isEmpty then none
  else some (if sgn.1 then m / ((10 : ℚ) ^ natOfDigits ds) else m * ((10 : ℚ) ^ natOfDigits ds))

def parseNumPos (l : List Char) : Option ℚ :=
  match parseMantissa l with
  | none => none
  | some (m, r) =>
    match r with
    | [] => some m
    | 'e' :: r2 => parseExpTail m r2
    | 'E' :: r2 => parseExpTail m r2
    | _ => none

def parseNumericQ (l : List Char) : Option ℚ :=
  match l with
  | '+' :: r => parseNumPos r
  | '-' :: r => (parseNumPos r).map (fun q => -q)
  | _ => parseNumPos l

/-- The sales-rank finalization of `parse_amazon_meta`:
`pd.to_numeric(..., errors='coerce')`, `int(median)` (raising `ValueError` on
NaN, i.e. when no value coerced), `fillna(median_rank).astype(int)`. -/
def finalizeSalesranks (raw : List (List Char)) : Except String (List ℤ) :=
  let parsed := raw.map parseNumericQ
  match medianQ parsed.reduceOption with
  | none => .error "ValueError: cannot convert float NaN to integer"
  | some m =>
    .ok (parsed.map (fun v =>
      match v with
      | some q => pyTrunc q
      | none => pyTrunc m))

structure FinalProductRow where
  Id : ℤ
  asin : Option (List Char)
  title : List Char
  salesrank : ℤ
  group : List Char
  deriving DecidableEq

def finalizeProducts (ps : List ProductRow) : Except String (List FinalProductRow) :=
  match finalizeSalesranks (ps.map (·.salesrank)) with
  | .error e => .error e
  | .ok rs =>
    .ok (List.zipWith
      (fun p r => { Id := p.Id, asin := p.asin, title := p.title, salesrank := r, group := p.group })
      ps rs)

def allDigits (l : List Char) : Bool := l.all Char.isDigit

def isLeap (y : ℕ) : Bool := y % 4 == 0 && (y % 100 != 0 || y % 400 == 0)

def daysInMonth (y m : ℕ) : ℕ :=
  if m = 2 then (if isLeap y then 29 else 28)
  else if m = 4 ∨ m = 6 ∨ m = 9 ∨ m = 11 then 30 else 31

/-- Models `pd.to_datetime(s, format='%Y-%m-%d', errors='coerce')` on one
string: exactly `year-month-day` with a 4-digit year, 1–2 digit month 1–12,
1–2 digit day valid for that month; anything else is NaT (`none`). -/
def parseDateYMD (l : List Char) : Option (ℕ × ℕ × ℕ) :=
  match splitOnC '-' l with
  | [y, m, d] =>
    if y.length = 4 ∧ allDigits y ∧
       0 < m.length ∧ m.length ≤ 2 ∧ allDigits m ∧
       0 < d.length ∧ d.length ≤ 2 ∧ allDigits d then
      let yv := natOfDigits y
      let mv := natOfDigits m
      let dv := natOfDigits d
      if 1 ≤ mv ∧ mv ≤ 12 ∧ 1 ≤ dv ∧ dv ≤ daysInMonth yv mv then some (yv, mv, dv) else none
    else none
  | _ => none

structure FinalReviewRow where
  asin : Option (List Char)
  date : Option (ℕ × ℕ × ℕ)
  rating : Option ℕ
  deriving DecidableEq

/-- Review-date finalization: each raw date string becomes a parsed date or
null; rows are kept either way. -/
def finalizeReviews (rs : List ReviewRow) : List FinalReviewRow :=
  rs.map (fun r => { asin := r.asin, date := parseDateYMD r.date, rating := r.rating })

/-- `parse_amazon_meta` end to end (file I/O aside): run the per-line state
machine, flush the last record, finalize the tables.  An uncaught Python
exception is an `Except.error`. -/
def parse_amazon_meta (lines : List (List Char)) :
    Except String (List FinalProductRow × List EdgeRow × List FinalReviewRow) :=
  match foldSteps initState lines with
  | .error e => .error e
  | .ok st =>
    match flushRecord st with
    | .error e => .error e
    | .ok st' =>
      match finalizeProducts st'.products with
      | .error e => .error e
      | .ok fps => .ok (fps, st'.edges, finalizeReviews st'.reviews)

/-- Whether an `Except` models a raised (uncaught) exception. -/
def isErr {ε α : Type} : Except ε α → Bool
  | .error _ => true
  | .ok _ => false

/-- The claim-C10 bad input shape: a `similar:` line (after stripping) whose
second whitespace token exists and is not accepted by Python `int()`. -/
def badSimilarLine (l : List Char) : Prop :=
  startsWithL simKey (trimL l) = true ∧
  1 < (pySplitWs l).length ∧
  pyInt ((pySplitWs l).getD 1 []) = none

/- ### Reviewer feature engine (`src/reviewer_profiling.py`) -/

/-- One row of the reviews table fed to `compute_features`.  The date is the
value after `pd.to_datetime(..., errors='coerce')`, represented as a day
number (`none` = NaT); the engine only ever uses differences and ordering of
dates, never the string form. -/
structure PRow where
  customer : String
  review_date : Option ℤ
  rating : Option ℚ
  votes : Option ℚ
  helpful : Option ℚ
  deriving DecidableEq

/-- The input DataFrame: its rows plus which optional columns exist.  When a
flag is `false` the corresponding field of every row is meaningless (the
column is absent from the frame). -/
structure ReviewsTable where
  rows : List PRow
  hasVotes : Bool
  hasHelpful : Bool
  deriving DecidableEq

/-- Per-reviewer output row of `compute_features`.

`std2_rating` and `burstiness2` are the squares of the code's `std_rating`
and `burstiness` (which take a square root, irrational in general): since
`√x = 0 ↔ x = 0` and `√` preserves definedness, every zero/null fact about
the code's values is equivalent to the same fact about these squares. -/
structure FeatureRow where
  customer_id : String
  total_reviews : ℕ
  avg_rating : Option ℚ
  std2_rating : ℚ
  helpfulness_ratio : Option ℚ
  active_days_span : Option ℤ
  median_interval : Option ℚ
  burstiness2 : Option ℚ
  reviews_per_month : Option ℚ
  deriving DecidableEq

/-- pandas sample variance (`ddof=1`, skipna done by the caller): NaN
(`none`) when fewer than two values. -/
def sampleVar (l : List ℚ) : Option ℚ :=
  if l.length < 2 then none
  else
    let n : ℚ := l.length
    let m := l.sum / n
    some ((l.map (fun x => (x - m) ^ 2)).sum / (n - 1))

/-- Successive differences of a (sorted) list of day numbers, as rationals:
the `dates.diff().dt.days.dropna()` of `interval_stats`. -/
def succDiffs : List ℤ → List ℚ
  | a :: b :: rest => ((b - a : ℤ) : ℚ) :: succDiffs (b :: rest)
  | _ => []

/-- The per-group body of `compute_features` (one reviewer's rows). -/
def groupFeatures (c : String) (g : List PRow) : FeatureRow :=
  let ratings := g.filterMap (·.rating)
  let dates := g.filterMap (·.review_date)
  let sortedD := insSort dates
  let diffs := succDiffs sortedD
  let span : Option ℤ :=
    match sortedD with
    | [] => none
    | x :: xs => some ((x :: xs).getLastD 0 - x)
  let tv := (g.filterMap (·.votes)).sum
  let th := (g.filterMap (·.helpful)).sum
  { customer_id := c
    total_reviews := g.length
    avg_rating := if ratings.isEmpty then none else some (ratings.sum / (ratings.length : ℚ))
    std2_rating := (sampleVar ratings).getD 0
    helpfulness_ratio := if tv = 0 then none else some (th / tv)
    active_days_span := span
    median_interval := medianQ diffs
    burstiness2 :=
      if diffs.isEmpty then none
      else
        let m := diffs.sum / (diffs.length : ℚ)
        if m = 0 then none
        else
          match sampleVar diffs with
          | none => none
          | some v => some (v / m ^ 2)
    reviews_per_month :=
      match span with
      | none => none
      | some s => if s = 0 then none else some ((g.length : ℚ) / ((s : ℚ) / 30)) }

/-- First-occurrence-distinct keys (the distinct group labels). -/
def uniqAux : List String → List String → List String
  | [], _ => []
  | c :: cs, seen => if seen.contains c then uniqAux cs seen else c :: uniqAux cs (c :: seen)

def uniqKeys (l : List String) : List String := uniqAux l []

/-- `compute_features` from `src/reviewer_profiling.py`.  Selecting a column
that the frame lacks (`g['helpful']` / `g['votes']`) raises `KeyError`; the
`helpful` selection is reached first. -/
def compute_features (t : ReviewsTable) : Except String (List FeatureRow) :=
  let ks := uniqKeys (t.rows.map (·.customer))
  if t.hasHelpful = false then .error "KeyError: helpful"
  else if t.hasVotes = false then .error "KeyError: votes"
  else .ok (ks.map (fun c => groupFeatures c (t.rows.filter (fun r => r.customer == c))))

/-! ## Helper lemmas -/

theorem startsWithL_exists (p l : List Char) (h : startsWithL p l = true) :
    ∃ t, l = p ++ t := by
  induction p generalizing l with
  | nil => exact ⟨l, rfl⟩
  | cons a ps ih =>
    cases l with
    | nil => simp [startsWithL] at h
    | cons c cs =>
      simp only [startsWithL, Bool.and_eq_true, beq_iff_eq] at h
      obtain ⟨h1, h2⟩ := h
      subst h1
      obtain ⟨t, rfl⟩ := ih cs h2
      exact ⟨t, rfl⟩

theorem startsWithL_cons_false (p : Char) (ps : List Char) (c : Char) (cs : List Char)
    (h : (p == c) = false) : startsWithL (p :: ps) (c :: cs) = false := by
  simp [startsWithL, h]

theorem trimRightL_head (a : Char) (xs : List Char) :
    trimRightL (a :: xs) = [] ∨ ∃ ys, trimRightL (a :: xs) = a :: ys := by
  unfold trimRightL
  cases h : (trimRightL xs).isEmpty with
  | true =>
    simp only [h, if_true]
    by_cases hsp : isSp a = true
    · left; simp [hsp]
    · right; exact ⟨[], by simp [hsp]⟩
  | false =>
    simp only [h, Bool.false_eq_true, if_false]
    exact Or.inr ⟨trimRightL xs, rfl⟩

theorem trim_keeps_head (c : Char) (xs : List Char) (hc : isSp c = false) :
    trimL (c :: xs) = [] ∨ ∃ ys, trimL (c :: xs) = c :: ys := by
  unfold trimL
  rw [List.dropWhile_cons, hc]
  simp only [Bool.false_eq_true, if_false]
  exact trimRightL_head c xs

theorem notId_of_sim (line : List Char) (hs : startsWithL simKey (trimL line) = true) :
    startsWithL idKey line = false := by
  cases hI : startsWithL idKey line with
  | false => rfl
  | true =>
    exfalso
    obtain ⟨t, ht⟩ := startsWithL_exists idKey line hI
    rw [ht] at hs
    rcases trim_keeps_head 'I' ('d' :: ':' :: t) (by decide) with h0 | ⟨ys, hy⟩
    · rw [show (idKey ++ t : List Char) = 'I' :: 'd' :: ':' :: t from rfl, h0] at hs
      exact absurd hs (by decide)
    · rw [show (idKey ++ t : List Char) = 'I' :: 'd' :: ':' :: t from rfl, hy] at hs
      unfold simKey at hs
      rw [startsWithL_cons_false _ _ _ _ (by decide)] at hs
      exact Bool.false_ne_true hs

theorem notASIN_of_sim (line : List Char) (hs : startsWithL simKey (trimL line) = true) :
    startsWithL asinKey line = false := by
  cases hA : startsWithL asinKey line with
  | false => rfl
  | true =>
    exfalso
    obtain ⟨t, ht⟩ := startsWithL_exists asinKey line hA
    rw [ht] at hs
    rcases trim_keeps_head 'A' ('S' :: 'I' :: 'N' :: ':' :: t) (by decide) with h0 | ⟨ys, hy⟩
    · rw [show (asinKey ++ t : List Char) = 'A' :: 'S' :: 'I' :: 'N' :: ':' :: t from rfl, h0] at hs
      exact absurd hs (by decide)
    · rw [show (asinKey ++ t : List Char) = 'A' :: 'S' :: 'I' :: 'N' :: ':' :: t from rfl, hy] at hs
      unfold simKey at hs
      rw [startsWithL_cons_false _ _ _ _ (by decide)] at hs
      exact Bool.false_ne_true hs

theorem reviewRowsOf_ok (a : Option (List Char)) (ls : List (List Char))
    (hl : ∀ l ∈ ls, pySplitWs l ≠ []) :
    reviewRowsOf a ls = .ok (ls.map (fun l =>
      { asin := a, date := (pySplitWs l).headD [], rating := searchNum ratingKey l })) := by
  induction ls with
  | nil => rfl
  | cons l ls ih =>
    have hnil := hl l (List.mem_cons_self l ls)
    unfold reviewRowsOf
    cases hsp : pySplitWs l with
    | nil => exact absurd hsp hnil
    | cons d rest =>
      rw [ih (fun x hx => hl x (List.mem_cons_of_mem l hx))]
      simp [hsp]

theorem medianQ_none_iff (l : List ℚ) : medianQ l = none ↔ l.length = 0 := by
  unfold medianQ
  by_cases h : l.length = 0
  · simp [h]
  · rw [if_neg h]
    constructor
    · intro he
      exfalso
      by_cases h2 : l.length % 2 = 1
      · rw [if_pos h2] at he; exact Option.noConfusion he
      · rw [if_neg h2] at he; exact Option.noConfusion he
    · intro hc; exact absurd hc h

theorem pySliceFrom2_all {α : Type} (l : List α) (stop : ℤ)
    (h : (l.length : ℤ) ≤ stop) : pySliceFrom2 l stop = l.drop 2 := by
  simp only [pySliceFrom2]
  have h0 : ¬ stop < 0 := by omega
  rw [if_neg h0]
  have hmin : min stop (l.length : ℤ) = (l.length : ℤ) := min_eq_right h
  rw [hmin]
  simp

/-! ## Claim theorems -/

/-- C1: for every completed record whose group, compared case-insensitively,
equals "discontinued product", `process_record` emits no product row, no edge
rows and no review rows — the early `return` fires before any append. -/
theorem C1_discontinued_emits_nothing (rec : RawRecord)
    (h : pyLower (rec.group.getD []) = discKey) :
    process_record rec = Except.ok ([], [], []) := by
  unfold process_record
  rw [if_pos h]

/-- Witness for C1: a concrete mixed-case discontinued record with empty
similar-code list and empty review-detail list emits nothing. -/
theorem C1_discontinued_emits_nothing_witness :
    process_record { emptyRec with group := some "DIScontinued Product".data } =
      Except.ok ([], [], []) :=
  C1_discontinued_emits_nothing _ (by decide)

/-- C2 counterexample: a discontinued record with a non-empty similar-code
list and a non-empty review-detail list contributes NO edge rows and NO
review rows (the early return skips the edge and review loops too), refuting
the claim that edges/reviews are materialized independently of the
discontinued check. -/
theorem C2_counterexample :
    process_record
      { emptyRec with
          id := some "1".data
          asin := some "A1".data
          group := some "Discontinued product".data
          similar := some ["B1".data, "B2".data]
          review_lines := some ["2001-1-1 rating: 5".data] } = Except.ok ([], [], []) := rfl

/-- C2 amended: edge rows and review rows are materialized per record only
when the record is NOT discontinued; for such a record `process_record`
emits exactly one product row, one edge row per similar code (in order),
and one review row per collected review-detail line. -/
theorem C2_rows_only_if_not_discontinued (rec : RawRecord) (s : List Char) (k : ℤ)
    (hg : pyLower (rec.group.getD []) ≠ discKey)
    (hid : rec.id = some s) (hk : pyInt s = some k)
    (hl : ∀ l ∈ rec.review_lines.getD [], pySplitWs l ≠ []) :
    process_record rec = Except.ok
      ([{ Id := k, asin := rec.asin, title := rec.title.getD [],
          salesrank := rec.salesrank.getD [], group := rec.group.getD [] }],
       (rec.similar.getD []).map (fun sim => { source := rec.asin, target := sim }),
       (rec.review_lines.getD []).map (fun l =>
         { asin := rec.asin, date := (pySplitWs l).headD [], rating := searchNum ratingKey l })) := by
  unfold process_record
  rw [if_neg hg, hid]
  simp only [pyIntOfId, hk]
  rw [reviewRowsOf_ok rec.asin _ hl]

/-- Witness for C2 amended: a concrete non-discontinued record yields its
product row, edge rows and review rows. -/
theorem C2_rows_only_if_not_discontinued_witness :
    process_record
      { emptyRec with
          id := some "7".data
          asin := some "A1".data
          group := some "Book".data
          similar := some ["B1".data]
          review_lines := some ["2001-1-1 rating: 5".data] } = Except.ok
      ([{ Id := 7, asin := some "A1".data, title := [], salesrank := [], group := "Book".data }],
       [{ source := some "A1".data, target := "B1".data }],
       [{ asin := some "A1".data, date := "2001-1-1".data, rating := some 5 }]) := by
  have h := C2_rows_only_if_not_discontinued
    { emptyRec with
        id := some "7".data
        asin := some "A1".data
        group := some "Book".data
        similar := some ["B1".data]
        review_lines := some ["2001-1-1 rating: 5".data] }
    "7".data 7 (by decide) rfl (by decide) (by decide)
  exact h

/-- C3 counterexample: on raw ranks ["10", "x", "30", "", "50"] the finalizer
does NOT produce [10, 20, 30, 20, 50]; the median of the valid ranks
{10, 30, 50} is 30, not 20. -/
theorem C3_counterexample :
    finalizeSalesranks ["10".data, "x".data, "30".data, "".data, "50".data] ≠
      Except.ok [10, 20, 30, 20, 50] := by
  intro h
  rw [show finalizeSalesranks ["10".data, "x".data, "30".data, "".data, "50".data] =
        Except.ok [10, 30, 30, 30, 50] from rfl] at h
  exact absurd (Except.ok.inj h) (by decide)

/-- C3 amended: on raw ranks ["10", "x", "30", "", "50"] the finalizer
produces [10, 30, 30, 30, 50]: each missing/invalid rank is replaced by 30,
the median of the valid ranks {10, 30, 50}, as an integer. -/
theorem C3_amended_ranks :
    finalizeSalesranks ["10".data, "x".data, "30".data, "".data, "50".data] =
      Except.ok [10, 30, 30, 30, 50] := rfl

/-- C4 counterexample: the review row materialized from the collected line
"2001-5-13  cutomer: A1B2 rating: 4 votes: 10 helpful: 7" carries NO vote
count and NO helpful count — `process_record` extracts only the leading date
token and the rating, so changing the votes/helpful text in the line leaves
the emitted rows identical; a row whose vote count is 10 and helpful count
is 7 is never produced. -/
theorem C4_counterexample :
    process_record
      { emptyRec with
          id := some "42".data
          asin := some "B0001".data
          review_lines := some ["2001-5-13  cutomer: A1B2 rating: 4 votes: 10 helpful: 7".data] } =
    process_record
      { emptyRec with
          id := some "42".data
          asin := some "B0001".data
          review_lines := some ["2001-5-13  cutomer: A1B2 rating: 4 votes: 999 helpful: 0".data] } := rfl

/-- C4 amended: the collected line "2001-5-13  cutomer: A1B2 rating: 4
votes: 10 helpful: 7", passed through `process_record` and then the review
finalizer, yields exactly one review row, whose date is 2001-05-13 and whose
rating is 4; the row has no vote-count or helpful-count component. -/
theorem C4_amended_roundtrip :
    (process_record
      { emptyRec with
          id := some "42".data
          asin := some "B0001".data
          review_lines := some ["2001-5-13  cutomer: A1B2 rating: 4 votes: 10 helpful: 7".data] } =
      Except.ok
        ([{ Id := 42, asin := some "B0001".data, title := [], salesrank := [], group := [] }],
         [],
         [{ asin := some "B0001".data, date := "2001-5-13".data, rating := some 4 }])) ∧
    finalizeReviews [{ asin := some "B0001".data, date := "2001-5-13".data, rating := some 4 }] =
      [{ asin := some "B0001".data, date := some (2001, 5, 13), rating := some 4 }] :=
  ⟨rfl, rfl⟩

/-- C5 counterexample: with the remaining-review-lines counter at 2, a line
whose trimmed form matches the header prefix "title:" is handled by the
title branch — it is NOT appended to the review-detail list and the counter
is NOT decremented (header classification takes precedence, contradicting
the claimed precedence of the collection rule); and a collected non-header
line is appended stripped of its surrounding whitespace, not verbatim. -/
theorem C5_counterexample :
    (stepLine
      { record := { emptyRec with reviews_to_read := some 2, review_lines := some [] }
        products := [], edges := [], reviews := [] } "   title: T".data =
      Except.ok
        { record :=
            { emptyRec with
                title := some "T".data
                reviews_to_read := some 2
                review_lines := some [] }
          products := [], edges := [], reviews := [] }) ∧
    (stepLine
      { record := { emptyRec with reviews_to_read := some 2, review_lines := some [] }
        products := [], edges := [], reviews := [] } "  2001-1-1 b".data =
      Except.ok
        { record :=
            { emptyRec with
                reviews_to_read := some 1
                review_lines := some ["2001-1-1 b".data] }
          products := [], edges := [], reviews := [] }) ∧
    "2001-1-1 b".data ≠ "  2001-1-1 b".data :=
  ⟨rfl, rfl, by decide⟩

/-- C5 amended: a non-blank line that matches none of the header prefixes
(`Id:`/`ASIN:` on the raw line; `title:`, `group:`, `salesrank:`,
`similar:`, `categories:`, `reviews:` on the trimmed line), processed while
the remaining-review-lines counter is positive, is appended to the
review-detail list stripped of surrounding whitespace and the counter is
decremented by one. -/
theorem C5_collection_rule (st : ParseState) (line : List Char) (n : ℕ)
    (h1 : startsWithL idKey line = false) (h2 : startsWithL asinKey line = false)
    (h3 : startsWithL titleKey (trimL line) = false)
    (h4 : startsWithL groupKey (trimL line) = false)
    (h5 : startsWithL rankKey (trimL line) = false)
    (h6 : startsWithL simKey (trimL line) = false)
    (h7 : startsWithL catKey (trimL line) = false)
    (h8 : startsWithL revKey (trimL line) = false)
    (hc : st.record.reviews_to_read = some n) (hn : 0 < n) (hb : trimL line ≠ []) :
    stepLine st line = Except.ok
      { st with record :=
          { st.record with
              review_lines := some (st.record.review_lines.getD [] ++ [trimL line])
              reviews_to_read := some (n - 1) } } := by
  unfold stepLine
  simp only [h1, h2, h3, h4, h5, h6, h7, h8, Bool.false_eq_true, if_false, hc]
  rw [if_pos hn, if_neg hb]

/-- Witness for C5 amended: a concrete review-detail line is collected
(stripped) and the counter drops from 2 to 1. -/
theorem C5_collection_rule_witness :
    stepLine
      { record := { emptyRec with reviews_to_read := some 2, review_lines := some [] }
        products := [], edges := [], reviews := [] }
      "  2001-1-1 cutomer: A rating: 5".data =
    Except.ok
      { record :=
          { emptyRec with
              reviews_to_read := some 1
              review_lines := some ["2001-1-1 cutomer: A rating: 5".data] }
        products := [], edges := [], reviews := [] } := by
  have h := C5_collection_rule
    { record := { emptyRec with reviews_to_read := some 2, review_lines := some [] }
      products := [], edges := [], reviews := [] }
    "  2001-1-1 cutomer: A rating: 5".data 2
    (by decide) (by decide) (by decide) (by decide) (by decide) (by decide) (by decide)
    (by decide) rfl (by decide) (by decide)
  exact h

/-- C6: a `similar:` line declaring an integer count `n` followed by fewer
than `n` whitespace-separated tokens parses without error, and the record's
similar-code list is set to exactly the tokens that are present
(`parts[2:2+count]` is a lenient Python slice). -/
theorem C6_short_similar_list (st : ParseState) (line : List Char) (n : ℤ)
    (hs : startsWithL simKey (trimL line) = true)
    (hlen : 1 < (pySplitWs line).length)
    (hint : pyInt ((pySplitWs line).getD 1 []) = some n)
    (hfew : ((pySplitWs line).length : ℤ) - 2 < n) :
    stepLine st line = Except.ok
      { st with record := { st.record with similar := some ((pySplitWs line).drop 2) } } := by
  have h1 := notId_of_sim line hs
  have h2 := notASIN_of_sim line hs
  obtain ⟨t, ht⟩ := startsWithL_exists simKey (trimL line) hs
  have h3 : startsWithL titleKey (trimL line) = false := by rw [ht]; rfl
  have h4 : startsWithL groupKey (trimL line) = false := by rw [ht]; rfl
  have h5 : startsWithL rankKey (trimL line) = false := by rw [ht]; rfl
  have hps : parse_similar_line line = .ok ((pySplitWs line).drop 2) := by
    unfold parse_similar_line
    rw [if_pos hlen, hint]
    show Except.ok (pySliceFrom2 (pySplitWs line) (2 + n)) = _
    rw [pySliceFrom2_all _ _ (by omega)]
  unfold stepLine
  simp only [h1, h2, h3, h4, h5, hs, Bool.false_eq_true, if_false, if_true, hps]

/-- Witness for C6: "similar: 5 B1 B2" declares five codes but provides two;
the record's similar list becomes exactly ["B1", "B2"]. -/
theorem C6_short_similar_list_witness :
    stepLine initState "similar: 5 B1 B2".data = Except.ok
      { initState with record := { initState.record with similar := some ["B1".data, "B2".data] } } := by
  have h := C6_short_similar_list initState "similar: 5 B1 B2".data 5
    (by decide) (by decide) (by decide) (by decide)
  exact h

/-- C7: sales-rank finalization fails hard exactly when zero raw ranks
survive numeric coercion (`int(median)` of NaN raises `ValueError`); when at
least one valid rank exists it does not fail. -/
theorem C7_fatal_iff_no_valid_rank (raw : List (List Char)) :
    isErr (finalizeSalesranks raw) = true ↔ (raw.map parseNumericQ).reduceOption = [] := by
  simp only [finalizeSalesranks]
  constructor
  · intro he
    by_contra hne
    rcases ho : medianQ ((raw.map parseNumericQ).reduceOption) with _ | m
    · exact hne (List.length_eq_zero.mp ((medianQ_none_iff _).mp ho))
    · rw [ho] at he
      simp [isErr] at he
  · intro hz
    have ho : medianQ ((raw.map parseNumericQ).reduceOption) = none := by
      rw [hz]; rfl
    rw [ho]
    rfl

/-- A line of the shape in claim C10 makes `stepLine` raise: the branch
order reaches the `similar:` branch (no earlier prefix can match a line
whose trimmed form starts with "similar:"), and `int(parts[1])` fails. -/
theorem stepLine_err_of_badSimilar (st : ParseState) (line : List Char)
    (hb : badSimilarLine line) :
    stepLine st line = Except.error "ValueError: invalid literal for int" := by
  obtain ⟨hs, hlen, hint⟩ := hb
  have h1 := notId_of_sim line hs
  have h2 := notASIN_of_sim line hs
  obtain ⟨t, ht⟩ := startsWithL_exists simKey (trimL line) hs
  have h3 : startsWithL titleKey (trimL line) = false := by rw [ht]; rfl
  have h4 : startsWithL groupKey (trimL line) = false := by rw [ht]; rfl
  have h5 : startsWithL rankKey (trimL line) = false := by rw [ht]; rfl
  have hps : parse_similar_line line = .error "ValueError: invalid literal for int" := by
    unfold parse_similar_line
    rw [if_pos hlen, hint]
  unfold stepLine
  simp only [h1, h2, h3, h4, h5, hs, Bool.false_eq_true, if_false, if_true, hps]

/-- Error propagation: if some line of the stream has the bad-`similar:`
shape, the whole line loop raises (the exception is uncaught). -/
theorem foldSteps_err (l0 : List Char) (hb : badSimilarLine l0) :
    ∀ (lines : List (List Char)) (st : ParseState), l0 ∈ lines →
      ∃ e, foldSteps st lines = Except.error e := by
  intro lines
  induction lines with
  | nil => intro st h; cases h
  | cons a as ih =>
    intro st hmem
    unfold foldSteps
    cases hstep : stepLine st a with
    | error e => exact ⟨e, rfl⟩
    | ok st' =>
      rcases List.mem_cons.mp hmem with rfl | hmem'
      · rw [stepLine_err_of_badSimilar st l0 hb] at hstep
        exact Except.noConfusion hstep
      · exact ih st' hmem'

/-- C10: any input stream containing a line whose trimmed form starts with
"similar:" and whose second whitespace token is not a Python-decimal-integer
string makes the whole ingestion run abort with an uncaught exception. -/
theorem C10_bad_similar_count_aborts (lines : List (List Char))
    (h : ∃ l ∈ lines, badSimilarLine l) :
    ∃ e, parse_amazon_meta lines = Except.error e := by
  obtain ⟨l0, hmem, hb⟩ := h
  obtain ⟨e, he⟩ := foldSteps_err l0 hb lines initState hmem
  refine ⟨e, ?_⟩
  unfold parse_amazon_meta
  rw [he]

/-- Witness for C10: the stream ["Id: 1", "similar: x A"] aborts. -/
theorem C10_bad_similar_count_aborts_witness :
    ∃ e, parse_amazon_meta ["Id: 1".data, "similar: x A".data] = Except.error e :=
  C10_bad_similar_count_aborts ["Id: 1".data, "similar: x A".data]
    ⟨"similar: x A".data, by decide, by decide, by decide, by decide⟩

/-- C8: every reviewer group with exactly one review gets `std_rating = 0`
(the `std().fillna(0)` path: the sample deviation of one value is NaN,
filled with 0 — stated via the squared deviation `std2_rating`, and
`√x = 0 ↔ x = 0`), and null `median_interval` and `burstiness` (no
successive date differences exist). -/
theorem C8_single_review_stats (t : ReviewsTable) (fs : List FeatureRow) (f : FeatureRow)
    (hok : compute_features t = Except.ok fs) (hmem : f ∈ fs) (h1 : f.total_reviews = 1) :
    f.std2_rating = 0 ∧ f.median_interval = none ∧ f.burstiness2 = none := by
  simp only [compute_features] at hok
  by_cases hh : t.hasHelpful = false
  · rw [if_pos hh] at hok; exact Except.noConfusion hok
  · rw [if_neg hh] at hok
    by_cases hv : t.hasVotes = false
    · rw [if_pos hv] at hok; exact Except.noConfusion hok
    · rw [if_neg hv] at hok
      have hfs := Except.ok.inj hok
      subst hfs
      obtain ⟨c, hc, hfc⟩ := List.mem_map.mp hmem
      subst hfc
      have hg : (t.rows.filter (fun r => r.customer == c)).length = 1 := by
        simpa [groupFeatures] using h1
      obtain ⟨r, hr⟩ := List.length_eq_one.mp hg
      rw [hr]
      refine ⟨?_, ?_, ?_⟩ <;>
        cases hrat : r.rating <;> cases hdat : r.review_date <;>
          simp [groupFeatures, sampleVar, medianQ, succDiffs, insSort, insSorted, hrat, hdat]

/-- Witness for C8: a table with a single review for reviewer "A" yields
zero squared rating deviation and null interval statistics. -/
theorem C8_single_review_stats_witness :
    (groupFeatures "A"
        [{ customer := "A", review_date := some 10, rating := some 5,
           votes := some 1, helpful := some 1 }]).std2_rating = 0 ∧
    (groupFeatures "A"
        [{ customer := "A", review_date := some 10, rating := some 5,
           votes := some 1, helpful := some 1 }]).median_interval = none ∧
    (groupFeatures "A"
        [{ customer := "A", review_date := some 10, rating := some 5,
           votes := some 1, helpful := some 1 }]).burstiness2 = none :=
  C8_single_review_stats
    { rows := [{ customer := "A", review_date := some 10, rating := some 5,
                 votes := some 1, helpful := some 1 }],
      hasVotes := true, hasHelpful := true }
    [groupFeatures "A"
      [{ customer := "A", review_date := some 10, rating := some 5,
         votes := some 1, helpful := some 1 }]]
    (groupFeatures "A"
      [{ customer := "A", review_date := some 10, rating := some 5,
         votes := some 1, helpful := some 1 }])
    rfl (List.mem_singleton.mpr rfl) rfl

/-- C9 counterexample: on a reviews table lacking the votes and helpful
columns, `compute_features` raises (KeyError on the groupby column
selection) instead of succeeding with null helpfulness ratios. -/
theorem C9_counterexample :
    isErr (compute_features
      { rows := [{ customer := "A", review_date := some 0, rating := some 5,
                   votes := none, helpful := none }],
        hasVotes := false, hasHelpful := false }) = true := rfl

/-- C9 amended: when the reviews table lacks the helpful and/or votes
column, `compute_features` raises a KeyError — the columns are required,
they are not treated as all-null. -/
theorem C9_missing_columns_raise (t : ReviewsTable)
    (h : t.hasHelpful = false ∨ t.hasVotes = false) :
    isErr (compute_features t) = true := by
  simp only [compute_features]
  rcases h with h | h
  · rw [if_pos h]; rfl
  · by_cases hh : t.hasHelpful = false
    · rw [if_pos hh]; rfl
    · rw [if_neg hh, if_pos h]; rfl

/-- Witness for C9 amended: a table without the helpful column raises. -/
theorem C9_missing_columns_raise_witness :
    isErr (compute_features { rows := [], hasVotes := true, hasHelpful := false }) = true :=
  C9_missing_columns_raise { rows := [], hasVotes := true, hasHelpful := false } (Or.inl rfl)
